import Mathlib

/-!
Verification of the pure size/extent arithmetic in `blivet/devicelibs/lvm.py`:
`clampSize`, `get_pv_space`, `get_pool_padding`, the thin-pool validators,
`getPossiblePhysicalExtents` and `getMaxLVSize`.

Modelling conventions.
The `Size` class (`blivet/size.py`) is not part of the sampled sources; following
the specification (§3 "Quantity — an immutable, arbitrary-precision byte count"
with exact addition, scalar multiplication, modulo and ordering) quantities are
modelled as exact rationals `ℚ`, with byte counts as the integral values.
The multiplier constants inside `get_pool_padding` come from the Python
`decimal` module and are modelled by their exact values under that module's
default context (28 significant digits, ROUND_HALF_EVEN): `Decimal('0.2')`
is exactly `1/5`, while `Decimal('1.0') / Decimal('6')` is the 28-digit
rounding of one sixth, `0.1666666666666666666666666667`.
-/

/-- Modelled from the spec: the `%` operation of the missing Quantity/`Size`
type (modulo by another Quantity), i.e. `a - b * floor (a / b)`.  On the
nonnegative domain required of quantities this agrees with Python's `%` on
every numeric type. -/
def pymod (a b : ℚ) : ℚ := a - b * ⌊a / b⌋

/-- Modelled from the spec: `Size("4 MiB")`, the source's `LVM_PE_SIZE`. -/
def LVM_PE_SIZE : ℚ := 4 * 2 ^ 20

/-- Modelled from the spec: `Size("2 MiB")`, the source's
`LVM_THINP_MIN_METADATA_SIZE`. -/
def LVM_THINP_MIN_METADATA_SIZE : ℚ := 2 * 2 ^ 20

/-- Modelled from the spec: `Size("16 GiB")`, the source's
`LVM_THINP_MAX_METADATA_SIZE`. -/
def LVM_THINP_MAX_METADATA_SIZE : ℚ := 16 * 2 ^ 30

/-- Modelled from the spec: `Size("64 KiB")`, the source's
`LVM_THINP_MIN_CHUNK_SIZE`. -/
def LVM_THINP_MIN_CHUNK_SIZE : ℚ := 64 * 2 ^ 10

/-- Modelled from the spec: `Size("1 GiB")`, the source's
`LVM_THINP_MAX_CHUNK_SIZE`. -/
def LVM_THINP_MAX_CHUNK_SIZE : ℚ := 2 ^ 30

/-- `clampSize(size, pesize, roundup)` from `lvm.py`:
`delta = size % pesize`; if `delta` is zero return `size`, otherwise round up
to `size + (pesize - delta)` or down to `size - delta`. -/
def clampSize (size pesize : ℚ) (roundup : Bool) : ℚ :=
  let delta := pymod size pesize
  if delta = 0 then size
  else if roundup then size + (pesize - delta)
  else size - delta

/-- `get_pv_space(size, disks, pesize)` from `lvm.py`.  The `disks` argument is
accepted and ignored exactly as in the source (`pylint: disable=unused-argument`). -/
def get_pv_space (size : ℚ) (disks : ℕ) (pesize : ℚ := LVM_PE_SIZE) : ℚ :=
  if size = 0 then size
  else clampSize size pesize true + pesize

/-- The `multiplier` local of `get_pool_padding` in `lvm.py`.
Forward (`reverse=False`): `Decimal('0.2')`, exactly `1/5`.
Reverse (`reverse=True`): `Decimal('1.0') / Decimal('6')`, which under the
`decimal` module's default context (28 significant digits, ROUND_HALF_EVEN)
is `0.1666666666666666666666666667` — one sixth rounded up in its 28th digit,
not the exact rational `1/6`. -/
def pool_multiplier (reverse : Bool) : ℚ :=
  if !reverse then 0.2
  else 1666666666666666666666666667 / 10 ^ 28

/-- `get_pool_padding(size, pesize, reverse)` from `lvm.py`:
`min(clampSize(size * multiplier, pesize, roundup=True),
     clampSize(LVM_THINP_MAX_METADATA_SIZE, pesize, roundup=True))`. -/
def get_pool_padding (size : ℚ) (pesize : ℚ := LVM_PE_SIZE)
    (reverse : Bool := false) : ℚ :=
  min (clampSize (size * pool_multiplier reverse) pesize true)
      (clampSize LVM_THINP_MAX_METADATA_SIZE pesize true)

/-- `is_valid_thin_pool_metadata_size(size)` from `lvm.py`. -/
def is_valid_thin_pool_metadata_size (size : ℚ) : Bool :=
  decide (LVM_THINP_MIN_METADATA_SIZE ≤ size) &&
  decide (size ≤ LVM_THINP_MAX_METADATA_SIZE)

/-- `n` is an integer power of two, decided through `Nat.log2`. -/
def natIsPow2 (n : ℕ) : Bool := n == 2 ^ n.log2

/-- The discard branch of `is_valid_thin_pool_chunk_size`: the source tests
`math.log(size, 2) % 1.0 == 0`, i.e. that the base-2 logarithm has no
fractional part.  In exact arithmetic a positive rational has an integral
base-2 logarithm iff it is `2^k` for some integer `k`, which is what this
definition decides.  The source's IEEE-double evaluation deviates from the
exact value at `size = 2^29` (512 MiB), where `math.log(2**29, 2)` yields
`29.000000000000004`; see the C5 analysis. -/
def ratIsPow2 (q : ℚ) : Bool :=
  (natIsPow2 q.num.toNat && q.den == 1) || (q.num == 1 && natIsPow2 q.den)

/-- `is_valid_thin_pool_chunk_size(size, discard)` from `lvm.py`, with the
discard branch taken at its exact-arithmetic meaning (`ratIsPow2`, see there). -/
def is_valid_thin_pool_chunk_size (size : ℚ) (discard : Bool := false) : Bool :=
  if ¬ (LVM_THINP_MIN_CHUNK_SIZE ≤ size ∧ size ≤ LVM_THINP_MAX_CHUNK_SIZE) then false
  else if discard then ratIsPow2 size
  else decide (pymod size LVM_THINP_MIN_CHUNK_SIZE = 0)

/-- The `while curpe <= Size("16 GiB")` loop of `getPossiblePhysicalExtents`,
with an explicit fuel bound.  Fuel 40 is ample: starting from 1 KiB the value
doubles each step and exceeds 16 GiB after 25 steps. -/
def getPossiblePhysicalExtentsAux : ℕ → ℚ → List ℚ
  | 0, _ => []
  | fuel + 1, curpe =>
      if curpe ≤ 16 * 2 ^ 30 then curpe :: getPossiblePhysicalExtentsAux fuel (curpe * 2)
      else []

/-- `getPossiblePhysicalExtents()` from `lvm.py`: collect `curpe` starting at
1 KiB, doubling, while `curpe <= 16 GiB`. -/
def getPossiblePhysicalExtents : List ℚ := getPossiblePhysicalExtentsAux 40 (2 ^ 10)

/-- `getMaxLVSize()` from `lvm.py`.  The architecture string is the result of
the (out-of-scope) `arch.getArch()` platform-classification service, taken
here as an input; the allow-list of wide-address platforms is the source's
literal tuple. -/
def getMaxLVSize (archStr : String) : ℚ :=
  if archStr ∈ ["x86_64", "ppc64", "alpha", "ia64", "s390"] then 8 * 2 ^ 60
  else 16 * 2 ^ 40

/-! ### Characterisation of `clampSize` -/

theorem clampSize_true_ite (x g : ℚ) :
    clampSize x g true = if pymod x g = 0 then x else x + (g - pymod x g) := by
  simp [clampSize]

theorem clampSize_false_ite (x g : ℚ) :
    clampSize x g false = if pymod x g = 0 then x else x - pymod x g := by
  simp [clampSize]

theorem clampSize_true_eq (x g : ℚ) (hg : 0 < g) :
    clampSize x g true = g * ⌈x / g⌉ := by
  have hgne : g ≠ 0 := ne_of_gt hg
  rw [clampSize_true_ite]
  by_cases h : pymod x g = 0
  · rw [if_pos h]
    have hx : x = g * ⌊x / g⌋ := by
      unfold pymod at h; linarith
    have hdiv : x / g = ((⌊x / g⌋ : ℤ) : ℚ) := by
      conv_lhs => rw [hx]
      rw [mul_comm, mul_div_assoc, div_self hgne, mul_one]
    conv_rhs => rw [hdiv, Int.ceil_intCast]
    exact hx
  · rw [if_neg h]
    have hxg : g * (x / g) = x := by field_simp
    have hlt : ((⌊x / g⌋ : ℤ) : ℚ) < x / g := by
      rcases eq_or_lt_of_le (Int.floor_le (x / g)) with heq | hlt
      · exfalso
        apply h
        unfold pymod
        rw [← heq] at hxg
        linarith
      · exact hlt
    have hceil : ⌈x / g⌉ = ⌊x / g⌋ + 1 := by
      refine le_antisymm (Int.ceil_le_floor_add_one _) (Int.add_one_le_of_lt ?_)
      have h2 : ((⌊x / g⌋ : ℤ) : ℚ) < ((⌈x / g⌉ : ℤ) : ℚ) :=
        lt_of_lt_of_le hlt (Int.le_ceil _)
      exact_mod_cast h2
    unfold pymod
    rw [hceil]
    push_cast
    ring

theorem clampSize_false_eq (x g : ℚ) (hg : 0 < g) :
    clampSize x g false = g * ⌊x / g⌋ := by
  rw [clampSize_false_ite]
  by_cases h : pymod x g = 0
  · rw [if_pos h]
    unfold pymod at h
    linarith
  · rw [if_neg h]
    unfold pymod
    ring

theorem le_clampSize_true (x g : ℚ) (hg : 0 < g) : x ≤ clampSize x g true := by
  rw [clampSize_true_eq x g hg]
  have h1 : x / g ≤ ((⌈x / g⌉ : ℤ) : ℚ) := Int.le_ceil _
  have h2 : g * (x / g) ≤ g * ((⌈x / g⌉ : ℤ) : ℚ) :=
    mul_le_mul_of_nonneg_left h1 (le_of_lt hg)
  have h3 : g * (x / g) = x := by field_simp
  linarith

theorem clampSize_true_lt (x g : ℚ) (hg : 0 < g) : clampSize x g true < x + g := by
  rw [clampSize_true_eq x g hg]
  have h1 : ((⌈x / g⌉ : ℤ) : ℚ) < x / g + 1 := Int.ceil_lt_add_one _
  have h2 : g * ((⌈x / g⌉ : ℤ) : ℚ) < g * (x / g + 1) :=
    mul_lt_mul_of_pos_left h1 hg
  have h3 : g * (x / g) = x := by field_simp
  nlinarith

theorem clampSize_false_le (x g : ℚ) (hg : 0 < g) : clampSize x g false ≤ x := by
  rw [clampSize_false_eq x g hg]
  have h1 : ((⌊x / g⌋ : ℤ) : ℚ) ≤ x / g := Int.floor_le _
  have h2 : g * ((⌊x / g⌋ : ℤ) : ℚ) ≤ g * (x / g) :=
    mul_le_mul_of_nonneg_left h1 (le_of_lt hg)
  have h3 : g * (x / g) = x := by field_simp
  linarith

theorem clampSize_true_le_of_le (x g : ℚ) (hg : 0 < g) (k : ℤ) (h : x ≤ g * k) :
    clampSize x g true ≤ g * k := by
  rw [clampSize_true_eq x g hg]
  have hdiv : x / g ≤ ((k : ℤ) : ℚ) := by
    rw [div_le_iff₀ hg]
    linarith
  have hk : ⌈x / g⌉ ≤ k := Int.ceil_le.mpr hdiv
  exact mul_le_mul_of_nonneg_left (by exact_mod_cast hk) (le_of_lt hg)

theorem clampSize_true_mono (x y g : ℚ) (hg : 0 < g) (hxy : x ≤ y) :
    clampSize x g true ≤ clampSize y g true := by
  rw [clampSize_true_eq x g hg, clampSize_true_eq y g hg]
  have h1 : ⌈x / g⌉ ≤ ⌈y / g⌉ := by
    apply Int.ceil_mono
    exact (div_le_div_iff_of_pos_right hg).mpr hxy
  exact mul_le_mul_of_nonneg_left (by exact_mod_cast h1) (le_of_lt hg)

/-! ### Claim theorems -/

/-- C1: for every size and every strictly positive granularity `g`,
`clampSize(size, g, roundup=True)` is `≥ size`, `clampSize(size, g, roundup=False)`
is `≤ size`, both results are exact multiples of `g`, and whenever
`size mod g = 0` both directions return `size` unchanged. -/
theorem clampSize_bounds_multiples_fixed_point (size g : ℚ) (hg : 0 < g) :
    size ≤ clampSize size g true ∧
    clampSize size g false ≤ size ∧
    (∃ k : ℤ, clampSize size g true = g * k) ∧
    (∃ k : ℤ, clampSize size g false = g * k) ∧
    (pymod size g = 0 → clampSize size g true = size ∧ clampSize size g false = size) :=
  ⟨le_clampSize_true size g hg,
   clampSize_false_le size g hg,
   ⟨⌈size / g⌉, clampSize_true_eq size g hg⟩,
   ⟨⌊size / g⌋, clampSize_false_eq size g hg⟩,
   fun h => ⟨by rw [clampSize_true_ite, if_pos h], by rw [clampSize_false_ite, if_pos h]⟩⟩

/-- Witness for C1 at `size = 10`, `g = 4`. -/
theorem clampSize_bounds_multiples_fixed_point_witness :
    (0 : ℚ) < 4 ∧
    ((10 : ℚ) ≤ clampSize 10 4 true ∧
     clampSize 10 4 false ≤ 10 ∧
     (∃ k : ℤ, clampSize 10 4 true = 4 * k) ∧
     (∃ k : ℤ, clampSize 10 4 false = 4 * k) ∧
     (pymod 10 4 = 0 → clampSize 10 4 true = 10 ∧ clampSize 10 4 false = 10)) :=
  ⟨by decide, clampSize_bounds_multiples_fixed_point 10 4 (by decide)⟩

/-- C3: the forward call `get_pool_padding(d, g)` returns
`min(clampSize(d * 1/5, g, roundup=True), clampSize(16 GiB, g, roundup=True))`;
in particular it never exceeds `clampSize(16 GiB, g, roundup=True)`. -/
theorem get_pool_padding_forward_formula (size g : ℚ) :
    get_pool_padding size g false =
      min (clampSize (size * (1 / 5)) g true) (clampSize (16 * 2 ^ 30) g true) ∧
    get_pool_padding size g false ≤ clampSize (16 * 2 ^ 30) g true := by
  have hm : pool_multiplier false = 1 / 5 := by norm_num [pool_multiplier]
  constructor
  · rw [get_pool_padding, hm, LVM_THINP_MAX_METADATA_SIZE]
  · rw [get_pool_padding, LVM_THINP_MAX_METADATA_SIZE]
    exact min_le_right _ _

/-- C6: `get_pv_space(0, disks, g)` is exactly `0`, and for strictly positive
sizes `get_pv_space(size, disks, g) = clampSize(size, g, roundup=True) + g`. -/
theorem get_pv_space_zero_and_overhead (size g : ℚ) (disks : ℕ)
    (hg : 0 < g) (hs : 0 < size) :
    get_pv_space 0 disks g = 0 ∧
    get_pv_space size disks g = clampSize size g true + g := by
  constructor
  · simp [get_pv_space]
  · rw [get_pv_space, if_neg (ne_of_gt hs)]

/-- Witness for C6 at `size = 5`, `g = 4`, `disks = 2`. -/
theorem get_pv_space_zero_and_overhead_witness :
    (0 : ℚ) < 4 ∧ (0 : ℚ) < 5 ∧
    (get_pv_space 0 2 4 = 0 ∧ get_pv_space 5 2 4 = clampSize 5 4 true + 4) :=
  ⟨by decide, by decide, get_pv_space_zero_and_overhead 5 4 2 (by decide) (by decide)⟩

/-- C8: `is_valid_thin_pool_metadata_size(size)` is true iff
`2 MiB ≤ size ≤ 16 GiB`, both endpoints included. -/
theorem is_valid_thin_pool_metadata_size_iff (size : ℚ) :
    is_valid_thin_pool_metadata_size size = true ↔
      (2 * 2 ^ 20 ≤ size ∧ size ≤ 16 * 2 ^ 30) := by
  simp [is_valid_thin_pool_metadata_size, LVM_THINP_MIN_METADATA_SIZE,
        LVM_THINP_MAX_METADATA_SIZE]

/-- C9: `getMaxLVSize` returns 8 EiB for every architecture in the literal
allow-list `("x86_64", "ppc64", "alpha", "ia64", "s390")` and 16 TiB for every
architecture outside it. -/
theorem getMaxLVSize_allow_list (a : String) :
    (a ∈ ["x86_64", "ppc64", "alpha", "ia64", "s390"] → getMaxLVSize a = 8 * 2 ^ 60) ∧
    (a ∉ ["x86_64", "ppc64", "alpha", "ia64", "s390"] → getMaxLVSize a = 16 * 2 ^ 40) := by
  constructor
  · intro h
    rw [getMaxLVSize, if_pos h]
  · intro h
    rw [getMaxLVSize, if_neg h]

/-- Witness for C9: one platform inside the allow-list, one outside. -/
theorem getMaxLVSize_allow_list_witness :
    getMaxLVSize "x86_64" = 8 * 2 ^ 60 ∧ getMaxLVSize "armv7l" = 16 * 2 ^ 40 :=
  ⟨(getMaxLVSize_allow_list "x86_64").1 (by decide),
   (getMaxLVSize_allow_list "armv7l").2 (by decide)⟩

/-- The physical-extent catalog, evaluated: powers of two from 1 KiB to 16 GiB. -/
theorem getPossiblePhysicalExtents_eval :
    getPossiblePhysicalExtents =
      [2 ^ 10, 2 ^ 11, 2 ^ 12, 2 ^ 13, 2 ^ 14, 2 ^ 15, 2 ^ 16, 2 ^ 17, 2 ^ 18,
       2 ^ 19, 2 ^ 20, 2 ^ 21, 2 ^ 22, 2 ^ 23, 2 ^ 24, 2 ^ 25, 2 ^ 26, 2 ^ 27,
       2 ^ 28, 2 ^ 29, 2 ^ 30, 2 ^ 31, 2 ^ 32, 2 ^ 33, 2 ^ 34] := by
  norm_num [getPossiblePhysicalExtents, getPossiblePhysicalExtentsAux]

/-- C7: `getPossiblePhysicalExtents()` is a strictly increasing sequence of
exactly 25 entries, the first 1 KiB, the last 16 GiB, each entry after the
first exactly double its predecessor. -/
theorem getPossiblePhysicalExtents_spec :
    getPossiblePhysicalExtents.length = 25 ∧
    getPossiblePhysicalExtents.head? = some (2 ^ 10) ∧
    getPossiblePhysicalExtents.getLast? = some (16 * 2 ^ 30) ∧
    List.Chain' (fun a b => a < b) getPossiblePhysicalExtents ∧
    List.Chain' (fun a b => b = 2 * a) getPossiblePhysicalExtents := by
  rw [getPossiblePhysicalExtents_eval]
  refine ⟨rfl, by norm_num, by norm_num, ?_, ?_⟩
  · norm_num [List.chain'_cons, List.chain'_singleton]
  · norm_num [List.chain'_cons, List.chain'_singleton]

/-- C10: for a fixed strictly positive granularity, the forward pool padding is
monotone nondecreasing in the data size. -/
theorem get_pool_padding_forward_mono (g d1 d2 : ℚ) (hg : 0 < g)
    (h0 : 0 ≤ d1) (h12 : d1 ≤ d2) :
    get_pool_padding d1 g false ≤ get_pool_padding d2 g false := by
  rw [get_pool_padding, get_pool_padding]
  refine min_le_min ?_ (le_refl _)
  apply clampSize_true_mono _ _ _ hg
  have hm : (0 : ℚ) ≤ pool_multiplier false := by norm_num [pool_multiplier]
  exact mul_le_mul_of_nonneg_right h12 hm

/-- Witness for C10 at `g = 4`, `d1 = 3`, `d2 = 10`. -/
theorem get_pool_padding_forward_mono_witness :
    (0 : ℚ) < 4 ∧ (0 : ℚ) ≤ 3 ∧ (3 : ℚ) ≤ 10 ∧
    get_pool_padding 3 4 false ≤ get_pool_padding 10 4 false :=
  ⟨by decide, by decide, by decide,
   get_pool_padding_forward_mono 4 3 10 (by decide) (by decide) (by decide)⟩

/-! ### Power-of-two arithmetic for the chunk-size validator -/

theorem natIsPow2_iff (n : ℕ) : natIsPow2 n = true ↔ ∃ k : ℕ, n = 2 ^ k := by
  constructor
  · intro h
    exact ⟨n.log2, by simpa [natIsPow2] using h⟩
  · rintro ⟨k, rfl⟩
    have hlog : (2 ^ k : ℕ).log2 = k := by
      rw [Nat.log2_eq_log_two]
      exact Nat.log_pow (by norm_num) k
    simp [natIsPow2, hlog]

theorem ratIsPow2_two_pow (k : ℕ) : ratIsPow2 ((2 : ℚ) ^ k) = true := by
  have h2 : ((2 : ℚ) ^ k) = ((2 ^ k : ℕ) : ℚ) := by push_cast; ring
  rw [ratIsPow2, h2, Rat.num_natCast, Rat.den_natCast, Int.toNat_natCast,
    (natIsPow2_iff _).mpr ⟨k, rfl⟩]
  simp

/-- C5 at the failing input: the claim (and the source's own comment, "To
support discard, chunk size must be a power of two") requires the validator to
accept 512 MiB = `2^29` bytes with discard enabled: it is a power of two and
`64 KiB ≤ 2^29 ≤ 1 GiB`.  This theorem evaluates the validator, with the
discard test at its exact-arithmetic meaning, at that input.  The Python code
instead returns `False` there, because `math.log(536870912, 2)` evaluates to
`29.000000000000004` in IEEE double precision, so its `% 1.0 == 0` test fails —
a floating-point bug in the source. -/
theorem is_valid_thin_pool_chunk_size_at_2_pow_29 :
    is_valid_thin_pool_chunk_size (2 ^ 29) true = true := by
  rw [is_valid_thin_pool_chunk_size]
  have hAB : LVM_THINP_MIN_CHUNK_SIZE ≤ (2 ^ 29 : ℚ) ∧
      (2 ^ 29 : ℚ) ≤ LVM_THINP_MAX_CHUNK_SIZE := by
    norm_num [LVM_THINP_MIN_CHUNK_SIZE, LVM_THINP_MAX_CHUNK_SIZE]
  rw [if_neg (not_not_intro hAB)]
  simpa using ratIsPow2_two_pow 29

/-- C4, amended: the reverse multiplier actually used by the code is
`Decimal('1.0') / Decimal('6') = 0.1666666666666666666666666667`, one sixth
rounded to the `decimal` module's default 28 significant digits — not the exact
rational `1/6`.  The reverse call returns
`min(clampSize(t * m, g, roundup=True), clampSize(16 GiB, g, roundup=True))`
with that rounded multiplier `m`. -/
theorem get_pool_padding_reverse_formula (size g : ℚ) :
    get_pool_padding size g true =
      min (clampSize (size * (1666666666666666666666666667 / 10 ^ 28)) g true)
          (clampSize (16 * 2 ^ 30) g true) := by
  rw [get_pool_padding, LVM_THINP_MAX_METADATA_SIZE, pool_multiplier]
  norm_num

/-- C4 counterexample: with the exact rational multiplier `1/6` the claim's
formula is *not* what the code returns.  At total size 25165824000 bytes
(= 6000 extents of 4 MiB) and granularity 4 MiB, exact `1/6` gives the aligned
padding 4194304000, but the code's 28-digit decimal multiplier exceeds `1/6`
by `1/(3*10^28)`, pushing the product just past the extent boundary, so the
code rounds up to 4198498304 — one full extent more. -/
theorem get_pool_padding_reverse_exact_sixth_counterexample :
    get_pool_padding 25165824000 4194304 true ≠
      min (clampSize (25165824000 * (1 / 6)) 4194304 true)
          (clampSize (16 * 2 ^ 30) 4194304 true) := by
  have h1 : (25165824000 : ℚ) * pool_multiplier true =
      4194304000 + 8388608 / 10 ^ 25 := by
    norm_num [pool_multiplier]
  have h2 : pymod (4194304000 + 8388608 / 10 ^ 25) 4194304 = 8388608 / 10 ^ 25 := by
    unfold pymod
    norm_num
  have h3 : clampSize (4194304000 + 8388608 / 10 ^ 25) 4194304 true = 4198498304 := by
    rw [clampSize_true_ite, if_neg (by rw [h2]; norm_num), h2]
    norm_num
  have h4 : clampSize (16 * 2 ^ 30 : ℚ) 4194304 true = 16 * 2 ^ 30 := by
    rw [clampSize_true_ite, if_pos]
    unfold pymod
    norm_num
  have h5 : (25165824000 : ℚ) * (1 / 6) = 4194304000 := by norm_num
  have h6 : clampSize (4194304000 : ℚ) 4194304 true = 4194304000 := by
    rw [clampSize_true_ite, if_pos]
    unfold pymod
    norm_num
  rw [get_pool_padding, LVM_THINP_MAX_METADATA_SIZE, h1, h3, h4, h5, h6]
  norm_num

/-! ### The forward/reverse pool-padding round trip -/

theorem get_pool_padding_roundtrip_aux (d g : ℚ) (hgq : 0 < g) (hg1 : 1 ≤ g)
    (hd : 0 ≤ d) :
    |min (clampSize ((d + min (clampSize (d * (1 / 5)) g true)
            (clampSize (16 * 2 ^ 30) g true)) *
            (1666666666666666666666666667 / 10 ^ 28)) g true)
        (clampSize (16 * 2 ^ 30) g true) -
      min (clampSize (d * (1 / 5)) g true) (clampSize (16 * 2 ^ 30) g true)| ≤ g := by
  set a := clampSize (d * (1 / 5)) g true with ha_def
  set c := clampSize (16 * 2 ^ 30 : ℚ) g true with hc_def
  set p := min a c with hp_def
  set t := d + p with ht_def
  set w := clampSize (t * (1666666666666666666666666667 / 10 ^ 28)) g true with hw_def
  obtain ⟨ka, hka⟩ : ∃ k : ℤ, a = g * k :=
    ⟨⌈d * (1 / 5) / g⌉, by rw [ha_def]; exact clampSize_true_eq _ _ hgq⟩
  obtain ⟨kc, hkc⟩ : ∃ k : ℤ, c = g * k :=
    ⟨⌈(16 * 2 ^ 30 : ℚ) / g⌉, by rw [hc_def]; exact clampSize_true_eq _ _ hgq⟩
  obtain ⟨kw, hkw⟩ : ∃ k : ℤ, w = g * k :=
    ⟨⌈t * (1666666666666666666666666667 / 10 ^ 28) / g⌉, by
      rw [hw_def]; exact clampSize_true_eq _ _ hgq⟩
  have ha_ge : d * (1 / 5) ≤ a := le_clampSize_true _ _ hgq
  have ha_lt : a < d * (1 / 5) + g := clampSize_true_lt _ _ hgq
  have hc_ge : (16 * 2 ^ 30 : ℚ) ≤ c := le_clampSize_true _ _ hgq
  have hc_lt : c < 16 * 2 ^ 30 + g := clampSize_true_lt _ _ hgq
  have hw_ge : t * (1666666666666666666666666667 / 10 ^ 28) ≤ w :=
    le_clampSize_true _ _ hgq
  have ha_nn : 0 ≤ a := le_trans (mul_nonneg hd (by norm_num)) ha_ge
  have hc_nn : 0 ≤ c := le_trans (by norm_num) hc_ge
  rcases le_or_lt a c with hac | hca
  · -- the data-side clamp is below the cap: the padding is `a`
    have hpa : p = a := min_eq_left hac
    have ht_eq : t = d + a := by rw [ht_def, hpa]
    have ht_nn : 0 ≤ t := by rw [ht_eq]; linarith
    have htm_le : t * (1666666666666666666666666667 / 10 ^ 28) ≤ a + g := by
      have h1 : t ≤ 6 * a := by rw [ht_eq]; linarith
      have h2 : t * (1666666666666666666666666667 / 10 ^ 28)
          ≤ 6 * a * (1666666666666666666666666667 / 10 ^ 28) :=
        mul_le_mul_of_nonneg_right h1 (by norm_num)
      have h3 : 6 * a * (1666666666666666666666666667 / 10 ^ 28)
          = a + a * (2 / 10 ^ 28) := by ring
      have h4 : a * (2 / 10 ^ 28) ≤ g := by
        have h5 : a < 16 * 2 ^ 30 + g := lt_of_le_of_lt hac hc_lt
        linarith
      linarith
    have hw_le : w ≤ a + g := by
      have hsum : a + g = g * ((ka + 1 : ℤ) : ℚ) := by
        rw [hka]; push_cast; ring
      rw [hsum] at htm_le ⊢
      exact clampSize_true_le_of_le _ _ hgq _ htm_le
    have hw_gt : a - g < w := by
      have h1 : 5 * a - 5 * g < d := by linarith
      have h2 : t * (1 / 6) ≤ t * (1666666666666666666666666667 / 10 ^ 28) :=
        mul_le_mul_of_nonneg_left (by norm_num) ht_nn
      have h3 : a - g < t * (1 / 6) := by rw [ht_eq]; linarith
      exact lt_of_lt_of_le h3 (le_trans h2 hw_ge)
    have haw : a ≤ w := by
      have h5 : g * ((ka : ℚ) - 1) < g * (kw : ℚ) := by
        rw [hka, hkw] at hw_gt
        linarith
      have h6 : (ka : ℚ) - 1 < (kw : ℚ) := (mul_lt_mul_left hgq).mp h5
      have h7 : ka ≤ kw := by
        have h8 : ka - 1 < kw := by exact_mod_cast h6
        omega
      rw [hka, hkw]
      exact mul_le_mul_of_nonneg_left (by exact_mod_cast h7) (le_of_lt hgq)
    have hr_low : a ≤ min w c := le_min haw hac
    have hr_up : min w c ≤ a + g := le_trans (min_le_left _ _) hw_le
    rw [hpa, abs_le]
    constructor <;> linarith
  · -- the cap is strictly below the data-side clamp: the padding is the cap
    have hpc : p = c := min_eq_right (le_of_lt hca)
    have hgap : c + g ≤ a := by
      have hklt : kc < ka := by
        have h5 : (kc : ℚ) < (ka : ℚ) := by
          rw [hka, hkc] at hca
          exact (mul_lt_mul_left hgq).mp hca
        exact_mod_cast h5
      have h6 : (kc : ℚ) + 1 ≤ (ka : ℚ) := by exact_mod_cast hklt
      calc c + g = g * ((kc : ℚ) + 1) := by rw [hkc]; ring
        _ ≤ g * (ka : ℚ) := mul_le_mul_of_nonneg_left h6 (le_of_lt hgq)
        _ = a := hka.symm
    have hd5c : 5 * c < d := by linarith
    have ht_eq : t = d + c := by rw [ht_def, hpc]
    have ht_nn : 0 ≤ t := by rw [ht_eq]; linarith
    have htm_gt : c < t * (1666666666666666666666666667 / 10 ^ 28) := by
      have h2 : t * (1 / 6) ≤ t * (1666666666666666666666666667 / 10 ^ 28) :=
        mul_le_mul_of_nonneg_left (by norm_num) ht_nn
      have h3 : c < t * (1 / 6) := by rw [ht_eq]; linarith
      exact lt_of_lt_of_le h3 h2
    have hcw : c ≤ w := le_trans (le_of_lt htm_gt) hw_ge
    rw [min_eq_right hcw, hpc, sub_self, abs_zero]
    linarith

/-- C2: for every byte count `d` and every strictly positive granularity `g`
(in bytes), the forward padding `get_pool_padding(d, g)` and the reverse
padding `get_pool_padding(d + get_pool_padding(d, g), g, reverse=True)` differ
by at most one granularity unit `g`. -/
theorem get_pool_padding_roundtrip (d g : ℕ) (hg : 0 < g) :
    |get_pool_padding ((d : ℚ) + get_pool_padding (d : ℚ) (g : ℚ) false) (g : ℚ) true -
      get_pool_padding (d : ℚ) (g : ℚ) false| ≤ (g : ℚ) := by
  have hgq : (0 : ℚ) < g := by exact_mod_cast hg
  have hg' : 1 ≤ g := hg
  have hg1 : (1 : ℚ) ≤ g := by exact_mod_cast hg'
  have hd : (0 : ℚ) ≤ d := by positivity
  have hm5 : pool_multiplier false = 1 / 5 := by norm_num [pool_multiplier]
  have hm6 : pool_multiplier true = 1666666666666666666666666667 / 10 ^ 28 := by
    norm_num [pool_multiplier]
  simp only [get_pool_padding, hm5, hm6, LVM_THINP_MAX_METADATA_SIZE]
  exact get_pool_padding_roundtrip_aux (d : ℚ) (g : ℚ) hgq hg1 hd

/-- Witness for C2 at `d = 1000`, `g = 4`. -/
theorem get_pool_padding_roundtrip_witness :
    0 < 4 ∧
    |get_pool_padding (((1000 : ℕ) : ℚ) + get_pool_padding ((1000 : ℕ) : ℚ) ((4 : ℕ) : ℚ) false)
        ((4 : ℕ) : ℚ) true -
      get_pool_padding ((1000 : ℕ) : ℚ) ((4 : ℕ) : ℚ) false| ≤ ((4 : ℕ) : ℚ) :=
  ⟨by decide, get_pool_padding_roundtrip 1000 4 (by decide)⟩
